import Mathlib

/-!
Shallow embedding of `src/lib/src/benchmark.rs` (the benchmark harness core).

External effects (directory listings, subprocess invocations, filesystem
operations) are passed in explicitly as environment values, so every function
below is a pure Lean translation of the corresponding Rust function: the same
checks, in the same order, producing the same error kinds. Functions that in
Rust spawn subprocesses additionally return the list of invocations they
performed, so that ordering and fail-fast properties can be stated.

The files `langs.rs`, `config.rs` and `paths.rs` are not part of the sources;
the definitions taken from them are modelled from the spec and marked as such.
-/

set_option autoImplicit false

/-- The language-variant enumeration (`BenchmarkLanguage` in `langs.rs`).
`benchmark.rs` special-cases `Scc`, `Effekt`, `Koka`, `SmlNj` and `MoonBit`;
`Rust` and `Go` stand for the ordinary variants. -/
inductive BenchmarkLanguage where
  | Scc
  | Effekt
  | Koka
  | SmlNj
  | MoonBit
  | Rust
  | Go
deriving DecidableEq

/-- Modelled from the spec: `langs.rs` is not under the sources. The Registry
maps each variant to its canonical source-file extension. -/
def BenchmarkLanguage.ext : BenchmarkLanguage → String
  | .Scc => "sc"
  | .Effekt => "effekt"
  | .Koka => "kk"
  | .SmlNj => "sml"
  | .MoonBit => "mbt"
  | .Rust => "rs"
  | .Go => "go"

/-- Modelled from the spec: `langs.rs` is not under the sources. Binary-name
suffix per variant; empty for the suffix-implicit variant (`Scc`). -/
def BenchmarkLanguage.suffix : BenchmarkLanguage → String
  | .Scc => ""
  | .Effekt => "effekt"
  | .Koka => "koka"
  | .SmlNj => "smlnj"
  | .MoonBit => "mbt"
  | .Rust => "rs"
  | .Go => "go"

/-- Modelled from the spec: `langs.rs` is not under the sources. The Registry
maps a file extension to a variant, or `none` for an unrecognized extension
(ignored, not an error). -/
def BenchmarkLanguage.from_ext (e : String) : Option BenchmarkLanguage :=
  if e = "sc" then some .Scc
  else if e = "effekt" then some .Effekt
  else if e = "kk" then some .Koka
  else if e = "sml" then some .SmlNj
  else if e = "mbt" then some .MoonBit
  else if e = "rs" then some .Rust
  else if e = "go" then some .Go
  else none

/-- The error kinds of `errors.rs`, as used by `benchmark.rs`. Payloads are
kept insofar as the constructor calls in `benchmark.rs` determine them. -/
inductive Error where
  | readDir
  | pathAccess (what : String)
  | unknownLang (op : String) (lang : BenchmarkLanguage)
  | compileErr (stdout stderr : String)
  | runErr
  | fileAccess (what : String)
  | hyperfine
deriving DecidableEq

/-- Result of `OsStr::to_str` on a file extension: either valid UTF-8 text or
not convertible. -/
inductive ExtStr where
  | valid (s : String)
  | nonUtf8
deriving DecidableEq

/-- One element yielded by `read_dir` inside `Benchmark::new`: either the
`io::Result<DirEntry>` is an error, or an entry whose path has the given
extension (`none` when `file_path.extension()` is `None`). -/
inductive DirEntry where
  | readErr
  | entry (ext? : Option ExtStr)
deriving DecidableEq

/-- Decidable shape predicate: an entry that is read successfully and whose
extension, when present, is valid UTF-8 text. -/
def good_entry : DirEntry → Bool
  | .entry none => true
  | .entry (some (.valid _)) => true
  | _ => false

/-- The `Config` struct of `config.rs` (field set from the spec: two argument
sequences, a repetition count, an optional heap-size hint). -/
structure Config where
  args : List String
  test_args : List String
  runs : Nat
  heap_size : Option Nat
deriving DecidableEq

/-- Modelled from the spec: `config.rs` is not under the sources. Defaults used
when the configuration file is absent: empty argument sequences and a default
repetition count. -/
def Config.default_config : Config :=
  ⟨[], [], 10, none⟩

/-- Modelled from the spec: `config.rs` is not under the sources.
`Config::from_file` falls back to the defaults when the file is absent; the
input is the parsed file contents when present. -/
def Config.from_file : Option Config → Config
  | none => Config.default_config
  | some c => c

/-- Modelled from the spec: `paths.rs` is not under the sources. The suite
root directory. -/
def SUITE_PATH : String := "benchmarks"

/-- Modelled from the spec: `paths.rs` is not under the sources. The results
root for hyperfine CSV exports. -/
def RAW_PATH : String := "results/raw"

/-- Host CPU architecture: `benchmark.rs` distinguishes two binary roots by
`target_arch`. -/
inductive Arch where
  | x86_64
  | aarch64
deriving DecidableEq

/-- Modelled from the spec: `paths.rs` is not under the sources. The two
architecture-specific binary-root directories (`bin_path_x86` /
`bin_path_aarch`). -/
def bin_root : Arch → String
  | .x86_64 => "target_scc/bin_x86"
  | .aarch64 => "target_scc/bin_aarch"

/-- The `Benchmark` struct of `benchmark.rs`. -/
structure Benchmark where
  name : String
  base_path : String
  languages : List BenchmarkLanguage
  config : Config
deriving DecidableEq

/-- The body of the `for file in dir_contents` loop of `Benchmark::new`:
collect the recognized, non-excluded language of each listed file, skipping
extensionless files, the `args` configuration file and unrecognized
extensions; fail with the `path_access` errors of the Rust code on a failed
entry read or a non-UTF-8 extension. -/
def collect_languages (exclude_lang : List BenchmarkLanguage) :
    List DirEntry → Except Error (List BenchmarkLanguage)
  | [] => .ok []
  | .readErr :: _ => .error (.pathAccess "Read file path")
  | .entry none :: rest => collect_languages exclude_lang rest
  | .entry (some .nonUtf8) :: _ =>
      .error (.pathAccess "Get File Extension (as string)")
  | .entry (some (.valid e)) :: rest =>
      if e = "args" then collect_languages exclude_lang rest
      else
        match BenchmarkLanguage.from_ext e with
        | some lang =>
            if exclude_lang.contains lang then collect_languages exclude_lang rest
            else
              match collect_languages exclude_lang rest with
              | .error er => .error er
              | .ok ls => .ok (lang :: ls)
        | none => collect_languages exclude_lang rest

/-- `Benchmark::new`: `dir_contents` is the outcome of `read_dir(&base_path)`
(`.error` when the directory cannot be listed), `config_file` the parsed
configuration file when present. -/
def Benchmark.new (name : String) (exclude_lang : List BenchmarkLanguage)
    (dir_contents : Except Unit (List DirEntry)) (config_file : Option Config) :
    Except Error Benchmark :=
  match dir_contents with
  | .error _ => .error .readDir
  | .ok files =>
      match collect_languages exclude_lang files with
      | .error er => .error er
      | .ok langs => .ok ⟨name, SUITE_PATH ++ "/" ++ name, langs, Config.from_file config_file⟩

/-- `Benchmark::bin_path`: `create_ok` is whether `create_dir_all(&bin_path)`
succeeds. -/
def Benchmark.bin_path (b : Benchmark) (lang : BenchmarkLanguage)
    (arch : Arch) (create_ok : Bool) : Except Error String :=
  if create_ok = false then .error (.pathAccess "create bin path")
  else
    let bin_name := if lang ≠ BenchmarkLanguage.Scc
      then b.name ++ "_" ++ lang.suffix else b.name
    if lang = BenchmarkLanguage.Effekt then
      .ok (bin_root arch ++ "/" ++ bin_name ++ "/" ++ b.name)
    else
      .ok (bin_root arch ++ "/" ++ bin_name)

/-- `Benchmark::result_path`: `create_ok` is whether `create_dir_all(RAW_PATH)`
succeeds. -/
def Benchmark.result_path (b : Benchmark) (create_ok : Bool) : Except Error String :=
  if create_ok = false then .error (.pathAccess "create hyperfine path")
  else .ok (RAW_PATH ++ "/" ++ b.name ++ ".csv")

/-- The relevant part of `std::process::Output`: exit-status success flag and
captured streams. -/
structure ProcOutput where
  success : Bool
  stdout : String
  stderr : String
deriving DecidableEq

/-- One external-process invocation performed by `compile`. -/
inductive ProcCall where
  | compileCmd (lang : BenchmarkLanguage)
  | chmod (path : String)
  | moonBuild
deriving DecidableEq

/-- Environment for `compile`: outcome of each external effect it may perform.
`compile_out lang` is `compile_cmd.output()` for that language (`none` = the
process could not be spawned); `chmod_status` is `cmd.status()` for the Koka
chmod (`none` = spawn failure, `some s` = exited with success flag `s`);
`copy_ok`, `moon_out`, `rename_ok` drive the MoonBit pipeline. -/
structure CompileEnv where
  arch : Arch
  bin_create_ok : Bool
  compile_out : BenchmarkLanguage → Option ProcOutput
  chmod_status : Option Bool
  copy_ok : Bool
  moon_out : Option ProcOutput
  rename_ok : Bool

/-- `Benchmark::compile_moonbit`: copy the source into the scratch workspace,
run `moon build`, then rename the built artifact to the canonical bin path.
Also returns the external invocations performed. -/
def Benchmark.compile_moonbit (b : Benchmark) (env : CompileEnv) :
    Except Error Unit × List ProcCall :=
  if env.copy_ok = false then (.error (.fileAccess "copy mbt file"), [])
  else
    match env.moon_out with
    | none => (.error (.compileErr "" "spawn error"), [.moonBuild])
    | some out =>
      if out.success = false then
        (.error (.compileErr out.stdout out.stderr), [.moonBuild])
      else
        match b.bin_path .MoonBit env.arch env.bin_create_ok with
        | .error er => (.error er, [.moonBuild])
        | .ok _ =>
          if env.rename_ok = false then
            (.error (.fileAccess "move MoonBit binary"), [.moonBuild])
          else (.ok (), [.moonBuild])

/-- `Benchmark::compile`: membership check first, then the MoonBit pipeline or
the ordinary compile command, then for Koka the chmod fix-up. Also returns the
external invocations performed, in order. -/
def Benchmark.compile (b : Benchmark) (lang : BenchmarkLanguage) (env : CompileEnv) :
    Except Error Unit × List ProcCall :=
  if b.languages.contains lang = false then
    (.error (.unknownLang "Compiling" lang), [])
  else if lang = BenchmarkLanguage.MoonBit then b.compile_moonbit env
  else
    match env.compile_out lang with
    | none => (.error (.compileErr "" "spawn error"), [.compileCmd lang])
    | some out =>
      if out.success = false then
        (.error (.compileErr out.stdout out.stderr), [.compileCmd lang])
      else if lang = BenchmarkLanguage.Koka then
        match b.bin_path lang env.arch env.bin_create_ok with
        | .error er => (.error er, [.compileCmd lang])
        | .ok bp =>
          match env.chmod_status with
          | none =>
              (.error (.fileAccess "Change file permissions"),
               [.compileCmd lang, .chmod bp])
          | some true => (.ok (), [.compileCmd lang, .chmod bp])
          | some false =>
              (.error (.pathAccess "Change file permissions"),
               [.compileCmd lang, .chmod bp])
      else (.ok (), [.compileCmd lang])

/-- The `for lang in self.languages` loop of `Benchmark::compile_all`, also
returning the list of languages whose compilation was attempted. -/
def compile_langs (b : Benchmark) (env : CompileEnv) :
    List BenchmarkLanguage → Except Error Unit × List BenchmarkLanguage
  | [] => (.ok (), [])
  | l :: ls =>
    match (b.compile l env).1 with
    | .error er => (.error er, [l])
    | .ok _ =>
      match compile_langs b env ls with
      | (r, attempted) => (r, l :: attempted)

/-- `Benchmark::compile_all`. -/
def Benchmark.compile_all (b : Benchmark) (env : CompileEnv) :
    Except Error Unit × List BenchmarkLanguage :=
  compile_langs b env b.languages

/-- Environment for `run`: `run_out lang` is `cmd.output()` for that
language (`none` = spawn failure). -/
structure RunEnv where
  arch : Arch
  bin_create_ok : Bool
  run_out : BenchmarkLanguage → Option ProcOutput

/-- The run-command constructor of `Benchmark` (named `run_cmd` in the Rust
source), as the argv it builds: the SML/NJ loader invocation
for `SmlNj`, direct binary invocation otherwise. -/
def Benchmark.run_command (b : Benchmark) (lang : BenchmarkLanguage)
    (arch : Arch) (create_ok : Bool) : Except Error (List String) :=
  match b.bin_path lang arch create_ok with
  | .error er => .error er
  | .ok bp =>
    if lang = BenchmarkLanguage.SmlNj then .ok ["sml", "@SMLload", bp]
    else .ok [bp]

/-- `Benchmark::run`: build the run command, append the mode-selected argument
sequence, execute, and fail with a Run error on spawn failure or non-zero
exit. Also returns the argv of the invocation performed (empty list of
invocations when command construction already failed). -/
def Benchmark.run (b : Benchmark) (lang : BenchmarkLanguage) (test : Bool)
    (env : RunEnv) : Except Error ProcOutput × List (List String) :=
  match b.run_command lang env.arch env.bin_create_ok with
  | .error er => (.error er, [])
  | .ok cmd =>
    let args := if test then b.config.test_args else b.config.args
    let argv := cmd ++ args
    match env.run_out lang with
    | none => (.error .runErr, [argv])
    | some out =>
      if out.success = false then (.error .runErr, [argv])
      else (.ok out, [argv])

/-- The `for lang in self.languages` loop of `Benchmark::run_all`, also
returning the list of languages whose run was attempted. -/
def run_langs (b : Benchmark) (test : Bool) (env : RunEnv) :
    List BenchmarkLanguage → Except Error (List ProcOutput) × List BenchmarkLanguage
  | [] => (.ok [], [])
  | l :: ls =>
    match (b.run l test env).1 with
    | .error er => (.error er, [l])
    | .ok out =>
      match run_langs b test env ls with
      | (.error er, attempted) => (.error er, l :: attempted)
      | (.ok outs, attempted) => (.ok (out :: outs), l :: attempted)

/-- `Benchmark::run_all`. -/
def Benchmark.run_all (b : Benchmark) (test : Bool) (env : RunEnv) :
    Except Error (List ProcOutput) × List BenchmarkLanguage :=
  run_langs b test env b.languages

/-- Environment for `run_hyperfine_all`: `raw_create_ok` is the
`create_dir_all(RAW_PATH)` inside `result_path`; `hyperfine_status` is
`command.status()` for the hyperfine invocation (`none` = spawn failure,
`some s` = the process ran and exited with success flag `s`). -/
structure HyperEnv where
  arch : Arch
  bin_create_ok : Bool
  raw_create_ok : Bool
  hyperfine_status : Option Bool

/-- The command-building loop of `Benchmark::run_hyperfine_all`: for each
language (re-checking membership in `self.languages`), render the shell
command string from the bin path, the SML/NJ loader for `SmlNj`, and the
benchmark-mode arguments. -/
def hyperfine_commands (b : Benchmark) (env : HyperEnv) :
    List BenchmarkLanguage → Except Error (List String)
  | [] => .ok []
  | l :: ls =>
    if b.languages.contains l = false then
      .error (.unknownLang "Run Hyperfine" l)
    else
      match b.bin_path l env.arch env.bin_create_ok with
      | .error er => .error er
      | .ok bin_str =>
        let call0 := if l = BenchmarkLanguage.SmlNj
          then "sml @SMLload " ++ bin_str else bin_str
        let call_str := b.config.args.foldl (fun s a => s ++ " " ++ a) call0
        match hyperfine_commands b env ls with
        | .error er => .error er
        | .ok rest => .ok (call_str :: rest)

/-- `Benchmark::run_hyperfine_all`: build the per-variant command strings,
compute the export path, invoke hyperfine. The Rust code applies
`map_err(... hyperfine ...)` to `command.status()` and discards the resulting
`ExitStatus`, so only a spawn failure is an error; the exit status itself is
ignored. -/
def Benchmark.run_hyperfine_all (b : Benchmark) (env : HyperEnv) :
    Except Error Unit :=
  match hyperfine_commands b env b.languages with
  | .error er => .error er
  | .ok _ =>
    match b.result_path env.raw_create_ok with
    | .error er => .error er
    | .ok _ =>
      match env.hyperfine_status with
      | none => .error .hyperfine
      | some _ => .ok ()

/-- Result of `Path::file_name().to_str()` on a suite entry: a valid UTF-8
final component or one that cannot be converted. -/
inductive NameRes where
  | utf8 (s : String)
  | nonUtf8
deriving DecidableEq

/-- One element yielded by `read_dir` on the suite root inside `load_all`:
the per-entry read result, the final path component (`none` when
`file_name()` is `None`), whether the entry is a directory, and the inputs
`Benchmark::new` would receive for it. -/
structure SuiteEntry where
  read_ok : Bool
  file_name : Option NameRes
  is_dir : Bool
  dir_contents : Except Unit (List DirEntry)
  config_file : Option Config

/-- Decidable shape predicate: an entry whose final path component exists and
is valid UTF-8 text. -/
def good_name (e : SuiteEntry) : Bool :=
  match e.file_name with
  | some (.utf8 _) => true
  | _ => false

/-- Outcome of `load_all`, with the `unwrap` panics modelled explicitly. -/
inductive LoadOutcome (α : Type) where
  | panicked
  | err (e : Error)
  | ok (v : α)
deriving DecidableEq

/-- The loop body of `Benchmark::load_all`: per entry, propagate a failed
entry read as a `path_access` error; then `file_name().unwrap().to_str().unwrap()`
— a missing or non-UTF-8 final component panics; then skip non-directories and
excluded benchmarks; otherwise construct the Benchmark and fail fast on its
error. -/
def load_entries (exclude_lang : List BenchmarkLanguage) (exclude_bench : List String) :
    List SuiteEntry → LoadOutcome (List Benchmark)
  | [] => .ok []
  | e :: rest =>
    if e.read_ok = false then .err (.pathAccess "Read File")
    else
      match e.file_name with
      | none => .panicked
      | some .nonUtf8 => .panicked
      | some (.utf8 name) =>
        if e.is_dir = false then load_entries exclude_lang exclude_bench rest
        else if exclude_bench.contains name then
          load_entries exclude_lang exclude_bench rest
        else
          match Benchmark.new name exclude_lang e.dir_contents e.config_file with
          | .error er => .err er
          | .ok b =>
            match load_entries exclude_lang exclude_bench rest with
            | .panicked => .panicked
            | .err er => .err er
            | .ok bs => .ok (b :: bs)

/-- `Benchmark::load_all`: `suite` is the outcome of `read_dir` on the suite
root. -/
def Benchmark.load_all (exclude_lang : List BenchmarkLanguage)
    (exclude_bench : List String) (suite : Except Unit (List SuiteEntry)) :
    LoadOutcome (List Benchmark) :=
  match suite with
  | .error _ => .err .readDir
  | .ok entries => load_entries exclude_lang exclude_bench entries

/-- Written from the spec's words, for comparison with `collect_languages`:
the variant contributed by one directory entry — its extension must be
present, be valid text, differ from the configuration-file extension `args`,
be recognized by the Registry, and not be excluded. -/
def spec_entry_lang (exclude_lang : List BenchmarkLanguage) :
    DirEntry → Option BenchmarkLanguage
  | .entry (some (.valid e)) =>
    if e = "args" then none
    else
      match BenchmarkLanguage.from_ext e with
      | some lang => if exclude_lang.contains lang then none else some lang
      | none => none
  | _ => none

theorem collect_languages_eq_filterMap (exclude_lang : List BenchmarkLanguage) :
    ∀ files : List DirEntry, (∀ e ∈ files, good_entry e = true) →
      collect_languages exclude_lang files =
        .ok (files.filterMap (spec_entry_lang exclude_lang))
  | [], _ => rfl
  | f :: rest, h => by
    have hrest := collect_languages_eq_filterMap exclude_lang rest
      (fun e he => h e (List.mem_cons_of_mem _ he))
    have hf := h f (List.mem_cons_self _ _)
    match f with
    | .readErr => simp [good_entry] at hf
    | .entry none =>
        simpa [collect_languages, List.filterMap_cons, spec_entry_lang] using hrest
    | .entry (some .nonUtf8) => simp [good_entry] at hf
    | .entry (some (.valid e)) =>
        by_cases he : e = "args"
        · simpa [collect_languages, List.filterMap_cons, spec_entry_lang, he] using hrest
        · match hfe : BenchmarkLanguage.from_ext e with
          | some lang =>
              by_cases hex : lang ∈ exclude_lang
              · simpa [collect_languages, List.filterMap_cons, spec_entry_lang,
                  he, hfe, hex] using hrest
              · simp [collect_languages, List.filterMap_cons, spec_entry_lang,
                  he, hfe, hex, hrest]
          | none =>
              simpa [collect_languages, List.filterMap_cons, spec_entry_lang,
                he, hfe] using hrest

/-- C2: for a benchmark directory with listable contents (every entry read
succeeds and every extension present is valid text) and any exclusion list,
`Benchmark::new` succeeds and its `languages` are exactly, and in
directory-listing insertion order, the variants of the files whose extension
is recognized by the Registry, is not the configuration-file extension
`args`, and is not excluded; unrecognized extensions are ignored, not
errors. -/
theorem discover_languages_exact (name : String)
    (exclude_lang : List BenchmarkLanguage) (files : List DirEntry)
    (config_file : Option Config) (h : ∀ e ∈ files, good_entry e = true) :
    Benchmark.new name exclude_lang (.ok files) config_file =
      .ok ⟨name, SUITE_PATH ++ "/" ++ name,
           files.filterMap (spec_entry_lang exclude_lang),
           Config.from_file config_file⟩ := by
  simp [Benchmark.new, collect_languages_eq_filterMap exclude_lang files h]

/-- Concrete instantiation of `discover_languages_exact`: directory with the
config file, a recognized `rs` file, an extensionless file, an unrecognized
extension and an excluded `go` file. -/
def files_c2 : List DirEntry :=
  [.entry (some (.valid "args")), .entry (some (.valid "rs")), .entry none,
   .entry (some (.valid "xyz")), .entry (some (.valid "go"))]

theorem discover_languages_exact_witness :
    (∀ e ∈ files_c2, good_entry e = true) ∧
      Benchmark.new "bench" [.Go] (.ok files_c2) none =
        .ok ⟨"bench", SUITE_PATH ++ "/" ++ "bench",
             files_c2.filterMap (spec_entry_lang [.Go]),
             Config.from_file none⟩ :=
  ⟨by decide, discover_languages_exact "bench" [.Go] files_c2 none (by decide)⟩

/-- The `languages` of a `Benchmark::new` result (empty on error); lets closed
facts about the discovered languages be stated without destructing the
`Except`. -/
def langs_of : Except Error Benchmark → List BenchmarkLanguage
  | .ok b => b.languages
  | .error _ => []

/-- C8 counterexample: a directory holding two files that share the
recognized extension `rs` yields `languages = [Rust, Rust]` — not duplicate
free, so `languages` is not a set. -/
theorem discover_duplicate_extension_counterexample :
    langs_of (Benchmark.new "bench" []
        (.ok [.entry (some (.valid "rs")), .entry (some (.valid "rs"))]) none) =
      [.Rust, .Rust] ∧
    ¬ (langs_of (Benchmark.new "bench" []
        (.ok [.entry (some (.valid "rs")), .entry (some (.valid "rs"))])
        none)).Nodup := by
  constructor
  · rfl
  · decide

/-- C8 amended: `languages` counts each variant once per recognized,
non-excluded file of the directory, so it holds each variant at most once
exactly when no two files contribute the same variant (as under the standard
layout of one source file per variant); with several files sharing a
recognized extension the variant is repeated. -/
theorem discover_languages_count (name : String)
    (exclude_lang : List BenchmarkLanguage) (files : List DirEntry)
    (config_file : Option Config) (h : ∀ e ∈ files, good_entry e = true)
    (lang : BenchmarkLanguage) :
    (langs_of (Benchmark.new name exclude_lang (.ok files) config_file)).count lang =
      files.countP (fun e => spec_entry_lang exclude_lang e == some lang) := by
  simp [Benchmark.new, collect_languages_eq_filterMap exclude_lang files h,
    langs_of, List.count_filterMap]

theorem discover_languages_count_witness :
    (∀ e ∈ [DirEntry.entry (some (.valid "rs")), DirEntry.entry (some (.valid "rs"))],
        good_entry e = true) ∧
      (langs_of (Benchmark.new "bench" []
          (.ok [.entry (some (.valid "rs")), .entry (some (.valid "rs"))])
          none)).count .Rust =
        List.countP (fun e => spec_entry_lang [] e == some BenchmarkLanguage.Rust)
          [DirEntry.entry (some (.valid "rs")), DirEntry.entry (some (.valid "rs"))] :=
  ⟨by decide,
   discover_languages_count "bench" []
     [.entry (some (.valid "rs")), .entry (some (.valid "rs"))] none (by decide) .Rust⟩

/-- C3: the artifact path returned by `bin_path` (when the binary-root
directory can be created) is a pure function of benchmark name, variant and
host architecture: `<bin_root>/<name>_<suffix>` for an ordinary variant,
`<bin_root>/<name>` for the suffix-less `Scc`, and
`<bin_root>/<name>_<suffix>/<name>` for the nested-pipeline `Effekt`. -/
theorem bin_path_pure_shape (b : Benchmark) (lang : BenchmarkLanguage)
    (arch : Arch) :
    b.bin_path lang arch true =
      .ok (if lang = BenchmarkLanguage.Effekt then
             bin_root arch ++ "/" ++ (b.name ++ "_" ++ lang.suffix) ++ "/" ++ b.name
           else if lang = BenchmarkLanguage.Scc then
             bin_root arch ++ "/" ++ b.name
           else
             bin_root arch ++ "/" ++ (b.name ++ "_" ++ lang.suffix)) := by
  cases lang <;> simp [Benchmark.bin_path]

/-- C4: `compile` on a variant outside the benchmark's discovered languages
fails with the UnknownLanguage error and performs no external invocation, for
every environment (so regardless of whether the source file exists on
disk). -/
theorem compile_unknown_language (b : Benchmark) (lang : BenchmarkLanguage)
    (env : CompileEnv) (h : b.languages.contains lang = false) :
    b.compile lang env = (.error (.unknownLang "Compiling" lang), []) := by
  unfold Benchmark.compile
  rw [h, if_pos rfl]

def bench_c4 : Benchmark :=
  ⟨"bench", "benchmarks/bench", [.Rust], Config.default_config⟩

def env_c4 : CompileEnv :=
  ⟨.x86_64, true, fun _ => some ⟨true, "", ""⟩, some true, true,
   some ⟨true, "", ""⟩, true⟩

theorem compile_unknown_language_witness :
    bench_c4.languages.contains .Koka = false ∧
      bench_c4.compile .Koka env_c4 =
        (.error (.unknownLang "Compiling" .Koka), []) :=
  ⟨by decide, compile_unknown_language bench_c4 .Koka env_c4 (by decide)⟩

def bench_koka : Benchmark :=
  ⟨"bench", "benchmarks/bench", [.Koka], Config.default_config⟩

def env_chmod_spawn_fail : CompileEnv :=
  ⟨.x86_64, true, fun _ => some ⟨true, "", ""⟩, none, true,
   some ⟨true, "", ""⟩, true⟩

/-- C6 counterexample: a successful Koka compile whose chmod step fails to
spawn makes `compile` fail with a FileAccess error, not a PathAccess error —
so not every failure of the permission-change step is PathAccess. -/
theorem compile_koka_chmod_spawn_fail_counterexample :
    (bench_koka.compile .Koka env_chmod_spawn_fail).1 =
        .error (.fileAccess "Change file permissions") ∧
      Error.fileAccess "Change file permissions" ≠
        Error.pathAccess "Change file permissions" := by
  constructor
  · rfl
  · decide

/-- C6 amended: for the post-build fix-up variant Koka, after a successful
compile the chmod permission-change step is invoked against the artifact
path; if that step exits unsuccessfully, `compile` fails with a PathAccess
error even though the compile succeeded; if the chmod process itself cannot
be spawned, `compile` fails with a FileAccess error; only a successful chmod
lets `compile` succeed. -/
theorem compile_koka_chmod_fixup (b : Benchmark) (env : CompileEnv)
    (out : ProcOutput) (hmem : b.languages.contains .Koka = true)
    (hout : env.compile_out .Koka = some out) (hsucc : out.success = true)
    (hbin : env.bin_create_ok = true) :
    (b.compile .Koka env).2 =
        [.compileCmd .Koka,
         .chmod (bin_root env.arch ++ "/" ++ (b.name ++ "_" ++ "koka"))] ∧
      (env.chmod_status = some false →
        (b.compile .Koka env).1 = .error (.pathAccess "Change file permissions")) ∧
      (env.chmod_status = none →
        (b.compile .Koka env).1 = .error (.fileAccess "Change file permissions")) ∧
      (env.chmod_status = some true → (b.compile .Koka env).1 = .ok ()) := by
  have hbp : b.bin_path .Koka env.arch env.bin_create_ok =
      .ok (bin_root env.arch ++ "/" ++ (b.name ++ "_" ++ "koka")) := by
    simp [Benchmark.bin_path, hbin, BenchmarkLanguage.suffix]
  have hmem' : BenchmarkLanguage.Koka ∈ b.languages := by simpa using hmem
  match hcs : env.chmod_status with
  | none =>
      simp [Benchmark.compile, hmem', hout, hsucc, hbp, hcs]
  | some true =>
      simp [Benchmark.compile, hmem', hout, hsucc, hbp, hcs]
  | some false =>
      simp [Benchmark.compile, hmem', hout, hsucc, hbp, hcs]

def env_chmod_exit_fail : CompileEnv :=
  ⟨.x86_64, true, fun _ => some ⟨true, "", ""⟩, some false, true,
   some ⟨true, "", ""⟩, true⟩

theorem compile_koka_chmod_fixup_witness :
    bench_koka.languages.contains .Koka = true ∧
      env_chmod_exit_fail.compile_out .Koka = some ⟨true, "", ""⟩ ∧
      ProcOutput.success ⟨true, "", ""⟩ = true ∧
      env_chmod_exit_fail.bin_create_ok = true ∧
      ((bench_koka.compile .Koka env_chmod_exit_fail).2 =
          [.compileCmd .Koka,
           .chmod (bin_root env_chmod_exit_fail.arch ++ "/" ++
             (bench_koka.name ++ "_" ++ "koka"))] ∧
        (env_chmod_exit_fail.chmod_status = some false →
          (bench_koka.compile .Koka env_chmod_exit_fail).1 =
            .error (.pathAccess "Change file permissions")) ∧
        (env_chmod_exit_fail.chmod_status = none →
          (bench_koka.compile .Koka env_chmod_exit_fail).1 =
            .error (.fileAccess "Change file permissions")) ∧
        (env_chmod_exit_fail.chmod_status = some true →
          (bench_koka.compile .Koka env_chmod_exit_fail).1 = .ok ())) :=
  ⟨by decide, rfl, rfl, rfl,
   compile_koka_chmod_fixup bench_koka env_chmod_exit_fail ⟨true, "", ""⟩
     (by decide) rfl rfl rfl⟩

/-- C7: `run` appends to the run command exactly `config.test_args` in order
in test mode and exactly `config.args` in order in benchmark mode; with the
configuration file absent both argument sequences are empty. -/
theorem run_appends_mode_args (b : Benchmark) (lang : BenchmarkLanguage)
    (test : Bool) (env : RunEnv) (hbin : env.bin_create_ok = true) :
    (∃ base, b.run_command lang env.arch env.bin_create_ok = .ok base ∧
        (b.run lang test env).2 =
          [base ++ (if test then b.config.test_args else b.config.args)]) ∧
      (Config.from_file none).test_args = [] ∧
      (Config.from_file none).args = [] := by
  refine ⟨?_, rfl, rfl⟩
  have hbp : ∃ p, b.bin_path lang env.arch env.bin_create_ok = .ok p := by
    cases lang <;> simp [Benchmark.bin_path, hbin]
  obtain ⟨p, hp⟩ := hbp
  by_cases hsml : lang = BenchmarkLanguage.SmlNj
  · subst hsml
    refine ⟨["sml", "@SMLload", p], ?_, ?_⟩
    · simp [Benchmark.run_command, hp]
    · cases hro : env.run_out BenchmarkLanguage.SmlNj with
      | none => simp [Benchmark.run, Benchmark.run_command, hp, hro]
      | some out =>
          cases hos : out.success <;>
            simp [Benchmark.run, Benchmark.run_command, hp, hro, hos]
  · refine ⟨[p], ?_, ?_⟩
    · simp [Benchmark.run_command, hp, hsml]
    · cases hro : env.run_out lang with
      | none => simp [Benchmark.run, Benchmark.run_command, hp, hsml, hro]
      | some out =>
          cases hos : out.success <;>
            simp [Benchmark.run, Benchmark.run_command, hp, hsml, hro, hos]

def bench_c7 : Benchmark :=
  ⟨"bench", "benchmarks/bench", [.SmlNj], ⟨["5"], ["1", "2"], 10, none⟩⟩

def env_c7 : RunEnv := ⟨.x86_64, true, fun _ => some ⟨true, "out", ""⟩⟩

theorem run_appends_mode_args_witness :
    env_c7.bin_create_ok = true ∧
      ((∃ base, bench_c7.run_command .SmlNj env_c7.arch env_c7.bin_create_ok = .ok base ∧
          (bench_c7.run .SmlNj true env_c7).2 =
            [base ++ (if true then bench_c7.config.test_args else bench_c7.config.args)]) ∧
        (Config.from_file none).test_args = [] ∧
        (Config.from_file none).args = []) :=
  ⟨rfl, run_appends_mode_args bench_c7 .SmlNj true env_c7 rfl⟩

/-- Whether `run` succeeds for one variant under the given environment. -/
def run_succeeds (b : Benchmark) (test : Bool) (env : RunEnv)
    (l : BenchmarkLanguage) : Bool :=
  match (b.run l test env).1 with
  | .ok _ => true
  | .error _ => false

/-- Whether `compile` succeeds for one variant under the given environment. -/
def compile_succeeds (b : Benchmark) (env : CompileEnv)
    (l : BenchmarkLanguage) : Bool :=
  match (b.compile l env).1 with
  | .ok _ => true
  | .error _ => false

theorem run_langs_attempted (b : Benchmark) (test : Bool) (env : RunEnv) :
    ∀ ls : List BenchmarkLanguage,
      (run_langs b test env ls).2 =
        ls.takeWhile (run_succeeds b test env) ++
          (ls.dropWhile (run_succeeds b test env)).take 1
  | [] => rfl
  | l :: ls => by
    have ih := run_langs_attempted b test env ls
    match hr : (b.run l test env).1 with
    | .error er =>
        have hs : run_succeeds b test env l = false := by simp [run_succeeds, hr]
        simp [run_langs, hr, List.takeWhile_cons, List.dropWhile_cons, hs]
    | .ok out =>
        have hs : run_succeeds b test env l = true := by simp [run_succeeds, hr]
        match hrec : run_langs b test env ls with
        | (.error er, attempted) =>
            simp only [run_langs, hr, hrec, List.takeWhile_cons, List.dropWhile_cons, hs,
              if_true, List.cons_append]
            simpa [hrec] using ih
        | (.ok outs, attempted) =>
            simp only [run_langs, hr, hrec, List.takeWhile_cons, List.dropWhile_cons, hs,
              if_true, List.cons_append]
            simpa [hrec] using ih

theorem compile_langs_attempted (b : Benchmark) (env : CompileEnv) :
    ∀ ls : List BenchmarkLanguage,
      (compile_langs b env ls).2 =
        ls.takeWhile (compile_succeeds b env) ++
          (ls.dropWhile (compile_succeeds b env)).take 1
  | [] => rfl
  | l :: ls => by
    have ih := compile_langs_attempted b env ls
    match hr : (b.compile l env).1 with
    | .error er =>
        have hs : compile_succeeds b env l = false := by simp [compile_succeeds, hr]
        simp [compile_langs, hr, List.takeWhile_cons, List.dropWhile_cons, hs]
    | .ok u =>
        have hs : compile_succeeds b env l = true := by simp [compile_succeeds, hr]
        match hrec : compile_langs b env ls with
        | (r, attempted) =>
            simp only [compile_langs, hr, hrec, List.takeWhile_cons,
              List.dropWhile_cons, hs, if_true, List.cons_append]
            simpa [hrec] using ih

theorem run_langs_ok_of_all (b : Benchmark) (test : Bool) (env : RunEnv) :
    ∀ ls : List BenchmarkLanguage,
      (∀ l ∈ ls, run_succeeds b test env l = true) →
        (run_langs b test env ls).1 =
          .ok (ls.filterMap (fun l => ((b.run l test env).1).toOption))
  | [], _ => rfl
  | l :: ls, h => by
    have hl := h l (List.mem_cons_self _ _)
    have ih := run_langs_ok_of_all b test env ls
      (fun x hx => h x (List.mem_cons_of_mem _ hx))
    match hr : (b.run l test env).1 with
    | .error er => simp [run_succeeds, hr] at hl
    | .ok out =>
        match hrec : run_langs b test env ls with
        | (.error er, attempted) => rw [hrec] at ih; simp at ih
        | (.ok outs, attempted) =>
            rw [hrec] at ih
            simp only [run_langs, hr, hrec, List.filterMap_cons]
            simp only [Except.ok.injEq] at ih ⊢
            simp [hr, ih, Except.toOption]

theorem run_langs_all_of_ok (b : Benchmark) (test : Bool) (env : RunEnv) :
    ∀ (ls : List BenchmarkLanguage) (outs : List ProcOutput),
      (run_langs b test env ls).1 = .ok outs →
        (∀ l ∈ ls, run_succeeds b test env l = true) ∧
          outs = ls.filterMap (fun l => ((b.run l test env).1).toOption)
  | [], outs, h => by
      refine ⟨by simp, ?_⟩
      simpa [run_langs] using h.symm
  | l :: ls, outs, h => by
    match hr : (b.run l test env).1 with
    | .error er => rw [run_langs, hr] at h; simp at h
    | .ok out =>
        match hrec : run_langs b test env ls with
        | (.error er, attempted) => rw [run_langs, hr, hrec] at h; simp at h
        | (.ok outs2, attempted) =>
            rw [run_langs, hr, hrec] at h
            simp only [Except.ok.injEq] at h
            have ih := run_langs_all_of_ok b test env ls outs2 (by rw [hrec])
            constructor
            · intro x hx
              rcases List.mem_cons.mp hx with hx | hx
              · subst hx; simp [run_succeeds, hr]
              · exact ih.1 x hx
            · rw [← h, List.filterMap_cons]
              simp [hr, ih.2, Except.toOption]

/-- C5: fail-fast orchestration. Within `compile_all` and `run_all` the
variants whose processing is attempted are exactly the discovery-order
languages up to and including the first failure (so nothing past the first
failure is attempted, and on total success the full list is processed in
order); `run_all` returns the ordered list of per-variant outputs exactly
when every run succeeded; and a run whose process exits unsuccessfully makes
`run` fail with the Run error. -/
theorem run_all_compile_all_fail_fast (b : Benchmark) (test : Bool)
    (env : RunEnv) (cenv : CompileEnv) (hbin : env.bin_create_ok = true) :
    ((b.compile_all cenv).2 =
        b.languages.takeWhile (compile_succeeds b cenv) ++
          (b.languages.dropWhile (compile_succeeds b cenv)).take 1) ∧
      ((b.run_all test env).2 =
        b.languages.takeWhile (run_succeeds b test env) ++
          (b.languages.dropWhile (run_succeeds b test env)).take 1) ∧
      (∀ outs, (b.run_all test env).1 = .ok outs →
        (∀ l ∈ b.languages, run_succeeds b test env l = true) ∧
          outs = b.languages.filterMap (fun l => ((b.run l test env).1).toOption)) ∧
      ((∀ l ∈ b.languages, run_succeeds b test env l = true) →
        (b.run_all test env).1 =
          .ok (b.languages.filterMap (fun l => ((b.run l test env).1).toOption))) ∧
      (∀ l out, env.run_out l = some out → out.success = false →
        (b.run l test env).1 = .error .runErr) := by
  refine ⟨compile_langs_attempted b cenv b.languages,
    run_langs_attempted b test env b.languages,
    fun outs h => run_langs_all_of_ok b test env b.languages outs h,
    fun h => run_langs_ok_of_all b test env b.languages h,
    fun l out hro hos => ?_⟩
  have hbp : ∃ p, b.bin_path l env.arch env.bin_create_ok = .ok p := by
    cases l <;> simp [Benchmark.bin_path, hbin]
  obtain ⟨p, hp⟩ := hbp
  by_cases hsml : l = BenchmarkLanguage.SmlNj
  · subst hsml
    simp [Benchmark.run, Benchmark.run_command, hp, hro, hos]
  · simp [Benchmark.run, Benchmark.run_command, hp, hsml, hro, hos]

def bench_c5 : Benchmark :=
  ⟨"bench", "benchmarks/bench", [.Rust, .Go, .Koka], Config.default_config⟩

/-- A run environment where the second discovered variant (`Go`) exits with a
non-zero status and the others succeed. -/
def env_c5 : RunEnv :=
  ⟨.x86_64, true,
   fun l => if l = BenchmarkLanguage.Go then some ⟨false, "", ""⟩
     else some ⟨true, "", ""⟩⟩

def cenv_c5 : CompileEnv :=
  ⟨.x86_64, true, fun _ => some ⟨true, "", ""⟩, some true, true,
   some ⟨true, "", ""⟩, true⟩

theorem run_all_compile_all_fail_fast_witness :
    env_c5.bin_create_ok = true ∧
      (((bench_c5.compile_all cenv_c5).2 =
          bench_c5.languages.takeWhile (compile_succeeds bench_c5 cenv_c5) ++
            (bench_c5.languages.dropWhile (compile_succeeds bench_c5 cenv_c5)).take 1) ∧
        ((bench_c5.run_all false env_c5).2 =
          bench_c5.languages.takeWhile (run_succeeds bench_c5 false env_c5) ++
            (bench_c5.languages.dropWhile (run_succeeds bench_c5 false env_c5)).take 1) ∧
        (∀ outs, (bench_c5.run_all false env_c5).1 = .ok outs →
          (∀ l ∈ bench_c5.languages, run_succeeds bench_c5 false env_c5 l = true) ∧
            outs = bench_c5.languages.filterMap
              (fun l => ((bench_c5.run l false env_c5).1).toOption)) ∧
        ((∀ l ∈ bench_c5.languages, run_succeeds bench_c5 false env_c5 l = true) →
          (bench_c5.run_all false env_c5).1 =
            .ok (bench_c5.languages.filterMap
              (fun l => ((bench_c5.run l false env_c5).1).toOption))) ∧
        (∀ l out, env_c5.run_out l = some out → out.success = false →
          (bench_c5.run l false env_c5).1 = .error .runErr)) :=
  ⟨rfl, run_all_compile_all_fail_fast bench_c5 false env_c5 cenv_c5 rfl⟩

theorem load_entries_no_panic (exclude_lang : List BenchmarkLanguage)
    (exclude_bench : List String) :
    ∀ entries : List SuiteEntry, (∀ e ∈ entries, good_name e = true) →
      load_entries exclude_lang exclude_bench entries ≠ .panicked
  | [], _ => by simp [load_entries]
  | e :: rest, h => by
    have he := h e (List.mem_cons_self _ _)
    have ih := load_entries_no_panic exclude_lang exclude_bench rest
      (fun x hx => h x (List.mem_cons_of_mem _ hx))
    match hro : e.read_ok with
    | false => simp [load_entries, hro]
    | true =>
      match hfn : e.file_name with
      | none => rw [good_name, hfn] at he; simp at he
      | some .nonUtf8 => rw [good_name, hfn] at he; simp at he
      | some (.utf8 name) =>
        match hd : e.is_dir with
        | false => simpa [load_entries, hro, hfn, hd] using ih
        | true =>
          by_cases hex : name ∈ exclude_bench
          · simpa [load_entries, hro, hfn, hd, hex] using ih
          · match hnew : Benchmark.new name exclude_lang e.dir_contents e.config_file with
            | .error er => simp [load_entries, hro, hfn, hd, hex, hnew]
            | .ok b =>
              match hrec : load_entries exclude_lang exclude_bench rest with
              | .panicked => exact absurd hrec ih
              | .err er => simp [load_entries, hro, hfn, hd, hex, hnew, hrec]
              | .ok bs => simp [load_entries, hro, hfn, hd, hex, hnew, hrec]

/-- C9: `load_all` panics (via `unwrap`) on any suite entry whose final path
component is missing or is not valid UTF-8 — for every exclusion list,
whether or not the entry is a directory or its name is excluded, i.e. before
the non-directory/excluded-benchmark skip check and instead of a PathAccess
error; and it never panics when every entry's final path component is valid
UTF-8 text. -/
theorem load_all_bad_name_panics (exclude_lang : List BenchmarkLanguage)
    (exclude_bench : List String) (nm : Option NameRes)
    (hnm : nm = none ∨ nm = some .nonUtf8) (is_dir : Bool)
    (dc : Except Unit (List DirEntry)) (cfg : Option Config)
    (rest : List SuiteEntry) (entries : List SuiteEntry)
    (hgood : ∀ e ∈ entries, good_name e = true) :
    Benchmark.load_all exclude_lang exclude_bench
        (.ok (⟨true, nm, is_dir, dc, cfg⟩ :: rest)) = .panicked ∧
      Benchmark.load_all exclude_lang exclude_bench (.ok entries) ≠ .panicked := by
  constructor
  · rcases hnm with hnm | hnm <;> subst hnm <;> simp [Benchmark.load_all, load_entries]
  · exact load_entries_no_panic exclude_lang exclude_bench entries hgood

def suite_entries_c9 : List SuiteEntry :=
  [⟨true, some (.utf8 "good"), true, .ok [.entry (some (.valid "rs"))], none⟩]

theorem load_all_bad_name_panics_witness :
    ((some NameRes.nonUtf8 = none ∨ some NameRes.nonUtf8 = some NameRes.nonUtf8) ∧
        (∀ e ∈ suite_entries_c9, good_name e = true)) ∧
      (Benchmark.load_all [] ["skipme"]
          (.ok (⟨true, some .nonUtf8, false, .ok [], none⟩ :: [])) = .panicked ∧
        Benchmark.load_all [] ["skipme"] (.ok suite_entries_c9) ≠ .panicked) :=
  ⟨⟨Or.inr rfl, by decide⟩,
   load_all_bad_name_panics [] ["skipme"] (some .nonUtf8) (Or.inr rfl) false
     (.ok []) none [] suite_entries_c9 (by decide)⟩

theorem hyperfine_commands_no_unknown (b : Benchmark) (env : HyperEnv)
    (op : String) (lang : BenchmarkLanguage) :
    ∀ ls : List BenchmarkLanguage, (∀ l ∈ ls, l ∈ b.languages) →
      hyperfine_commands b env ls ≠ .error (.unknownLang op lang)
  | [], _ => by simp [hyperfine_commands]
  | l :: ls, h => by
    have hl : l ∈ b.languages := h l (List.mem_cons_self _ _)
    have ih := hyperfine_commands_no_unknown b env op lang ls
      (fun x hx => h x (List.mem_cons_of_mem _ hx))
    have hc : b.languages.contains l = true := by simpa using hl
    rw [hyperfine_commands, hc]
    simp only [Bool.true_eq_false, if_false]
    match hbp : b.bin_path l env.arch env.bin_create_ok with
    | .error er =>
        have : er ≠ Error.unknownLang op lang := by
          revert hbp
          unfold Benchmark.bin_path
          match env.bin_create_ok with
          | false => intro hbp; simp at hbp; simp [← hbp]
          | true => intro hbp; cases l <;> simp at hbp
        simpa using this
    | .ok bin_str =>
        match hrec : hyperfine_commands b env ls with
        | .error er =>
            rw [hrec] at ih
            intro hcontra
            simp only [Except.error.injEq] at hcontra
            exact ih (by rw [hcontra])
        | .ok rest => simp

/-- C10: the per-variant membership re-check in `run_hyperfine_all` iterates
over the benchmark's own `languages` and tests membership in that same list,
so the UnknownLanguage branch is unreachable: `run_hyperfine_all` never
returns an UnknownLanguage error, for any benchmark and environment. -/
theorem run_hyperfine_all_no_unknown_language (b : Benchmark) (env : HyperEnv)
    (op : String) (lang : BenchmarkLanguage) :
    b.run_hyperfine_all env ≠ .error (.unknownLang op lang) := by
  unfold Benchmark.run_hyperfine_all
  match hcmds : hyperfine_commands b env b.languages with
  | .error er =>
      have := hyperfine_commands_no_unknown b env op lang b.languages
        (fun x hx => hx)
      rw [hcmds] at this
      intro hcontra
      simp only [Except.error.injEq] at hcontra
      exact this (by rw [hcontra])
  | .ok cmds =>
      unfold Benchmark.result_path
      match env.raw_create_ok with
      | false => simp
      | true =>
          match env.hyperfine_status with
          | none => simp
          | some s => simp

def bench_hf : Benchmark :=
  ⟨"bench", "benchmarks/bench", [.Rust], Config.default_config⟩

/-- C1, against the spec: `run_hyperfine_all` applies `map_err` to
`Command::status()` and then discards the returned `ExitStatus`, so when the
timing engine spawns but exits with a non-zero status the operation still
returns success; only a spawn failure yields the Hyperfine error. Evaluated
here at a concrete benchmark: with `hyperfine_status = some false` (engine
ran, exited non-zero) the result is `ok`, and only with
`hyperfine_status = none` (spawn failure) is it the Hyperfine error. -/
theorem run_hyperfine_all_ignores_exit_status :
    bench_hf.run_hyperfine_all ⟨.x86_64, true, true, some false⟩ = .ok () ∧
      bench_hf.run_hyperfine_all ⟨.x86_64, true, true, none⟩ =
        .error .hyperfine := by
  exact ⟨rfl, rfl⟩
